import Mathlib

/-!
# Verification of the route-planner core (routeplanner/utils.py, services/route_planner.py)

Shallow embedding of the fuel-stop planner.  Python floats are modelled as
rationals (`ℚ`); the geodesic distance is abstracted as a parameter
`hav : Coord → Coord → ℚ` of every algorithm that calls `haversine`, since the
algorithms use its values only through comparisons and sums.  The actual
haversine formula itself is modelled over `ℝ` (`haversineA`, `haversineMiles`)
for the domain-safety analysis of `asin`/`sqrt`.  The gas-station catalog
(a Django queryset in the source) is modelled as a list of `GasStation`
records supplied to the candidate finder.
-/

/-- A coordinate pair `(longitude, latitude)`, as used throughout `utils.py`. -/
abbrev Coord : Type := ℚ × ℚ

/-- Degrees to radians (`math.radians`). -/
noncomputable def radians (x : ℝ) : ℝ := x * (Real.pi / 180)

/-- The intermediate value `a` of `haversine` in `utils.py`:
`a = sin(dlat/2)**2 + cos(lat1)*cos(lat2)*sin(dlon/2)**2` after converting
all four inputs with `math.radians`. -/
noncomputable def haversineA (coord1 coord2 : ℝ × ℝ) : ℝ :=
  let lon1 := radians coord1.1
  let lat1 := radians coord1.2
  let lon2 := radians coord2.1
  let lat2 := radians coord2.2
  Real.sin ((lat2 - lat1) / 2) ^ 2 +
    Real.cos lat1 * Real.cos lat2 * Real.sin ((lon2 - lon1) / 2) ^ 2

/-- The function `haversine` from `utils.py`: `miles = 3956 * 2 * asin(sqrt(a))`. -/
noncomputable def haversineMiles (coord1 coord2 : ℝ × ℝ) : ℝ :=
  3956 * (2 * Real.arcsin (Real.sqrt (haversineA coord1 coord2)))

/-- A `GasStation` row (`models.py`): only the fields read by the planner are
kept.  `latitude`/`longitude` are nullable (`Option`). -/
structure GasStation where
  opis_truckstop_id : String
  retail_price : ℚ
  latitude : Option ℚ
  longitude : Option ℚ
deriving DecidableEq, Repr

/-- The candidate dictionary built by `find_candidate_stations_near_segment`:
`location` is `[latitude, longitude]`. -/
structure CandidateStop where
  location : ℚ × ℚ
  fuel_price_per_gallon : ℚ
  distance_from_start_straight_line_miles : ℚ
  station_obj : GasStation
deriving DecidableEq, Repr

/-- The stop dictionary appended by `find_stops`. -/
structure SelectedStop where
  location : ℚ × ℚ
  fuel_price_per_gallon : ℚ
  distance_from_start_miles : ℚ
deriving DecidableEq, Repr

/-- The raw cumulative-distance list of `calculate_cumulative_distances`
before the rounding correction: `[0]`, then each previous value plus the
distance of the next consecutive pair. -/
def rawCumulativeAux (hav : Coord → Coord → ℚ) (prev : Coord) (acc : ℚ) :
    List Coord → List ℚ
  | [] => []
  | p :: ps => (acc + hav prev p) :: rawCumulativeAux hav p (acc + hav prev p) ps

/-- The list `cumulative_distances` just before the correction `if` in
`calculate_cumulative_distances`. -/
def rawCumulative (hav : Coord → Coord → ℚ) (route_coords : List Coord) : List ℚ :=
  match route_coords with
  | [] => [0]
  | p :: ps => 0 :: rawCumulativeAux hav p 0 ps

/-- Python `abs` on a rational, written so that it evaluates by kernel
reduction (it agrees with `|·|`, see `ratAbs_eq_abs`). -/
def ratAbs (q : ℚ) : ℚ := if q < 0 then -q else q

/-- The function `calculate_cumulative_distances` from `utils.py`: the raw cumulative list,
with the last element overwritten by the declared total when they differ by
more than 1 mile. -/
def calculate_cumulative_distances (hav : Coord → Coord → ℚ)
    (route_coords : List Coord) (total_route_distance_miles : ℚ) : List ℚ :=
  let c := rawCumulative hav route_coords
  if ratAbs (c.getLastD 0 - total_route_distance_miles) > 1 then
    c.dropLast ++ [total_route_distance_miles]
  else c

/-- The function `find_route_point_index_by_distance` from `utils.py`: the first index
`j ≥ start_index` whose cumulative distance is `≥ target_distance`, or the
last index when none exists. -/
def find_route_point_index_by_distance (cumulative_distances : List ℚ)
    (target_distance : ℚ) (start_index : ℕ) : ℕ :=
  match ((List.range cumulative_distances.length).drop start_index).find?
      (fun j => target_distance ≤ cumulative_distances.getD j 0) with
  | some j => j
  | none => cumulative_distances.length - 1

/-- The loop of `deduplicate_stops_by_location`, carrying the
`seen_locations` set (modelled as a list used only through membership). -/
def dedupGo (seen : List (ℚ × ℚ)) : List SelectedStop → List SelectedStop
  | [] => []
  | s :: rest =>
    if s.location ∈ seen then dedupGo seen rest
    else s :: dedupGo (s.location :: seen) rest

/-- The function `deduplicate_stops_by_location` from `utils.py`. -/
def deduplicate_stops_by_location (stops_list : List SelectedStop) : List SelectedStop :=
  dedupGo [] stops_list

/-- Whether a `GasStation` row passes the queryset filter
`latitude__isnull=False, longitude__isnull=False`. -/
def hasCoords (st : GasStation) : Bool :=
  st.latitude.isSome && st.longitude.isSome

/-- The pair `(longitude, latitude)` of a station, as built by
`station_coords = (float(station.longitude), float(station.latitude))`. -/
def stationCoords (st : GasStation) : Coord :=
  (st.longitude.getD 0, st.latitude.getD 0)

/-- The body of the station loop in `find_candidate_stations_near_segment`:
`some` candidate when the station is near the segment and strictly ahead of
the last stop, `none` otherwise. -/
def candidateOf (hav : Coord → Coord → ℚ) (route_coords : List Coord)
    (segment_start_index segment_end_index : ℕ)
    (proximity_threshold_miles last_stop_distance_from_start : ℚ)
    (st : GasStation) : Option CandidateStop :=
  let sc := stationCoords st
  let is_near_route_segment :=
    (List.range' segment_start_index (segment_end_index + 1 - segment_start_index)).any
      (fun k => decide (hav sc (route_coords.getD k (0, 0)) < proximity_threshold_miles))
  if is_near_route_segment then
    let dist_station_from_start_straight_line := hav (route_coords.getD 0 (0, 0)) sc
    if dist_station_from_start_straight_line > last_stop_distance_from_start then
      some { location := (st.latitude.getD 0, st.longitude.getD 0)
             fuel_price_per_gallon := st.retail_price
             distance_from_start_straight_line_miles := dist_station_from_start_straight_line
             station_obj := st }
    else none
  else none

/-- The function `find_candidate_stations_near_segment` from `utils.py`, with the station
catalog passed explicitly (the source queries the `GasStation` model).  The
source also receives `cumulative_distances` but never reads it, so that
parameter is omitted here. -/
def find_candidate_stations_near_segment (hav : Coord → Coord → ℚ)
    (catalog : List GasStation) (route_coords : List Coord)
    (segment_start_index segment_end_index : ℕ)
    (proximity_threshold_miles last_stop_distance_from_start : ℚ) :
    List CandidateStop :=
  (catalog.filter hasCoords).filterMap
    (candidateOf hav route_coords segment_start_index segment_end_index
      proximity_threshold_miles last_stop_distance_from_start)

/-- The fold of Python `min(..., key=lambda x: x['fuel_price_per_gallon'])`:
keeps the first element whose key is strictly smaller than the best so far. -/
def minByPrice (c : CandidateStop) (l : List CandidateStop) : CandidateStop :=
  l.foldl (fun best x =>
    if x.fuel_price_per_gallon < best.fuel_price_per_gallon then x else best) c

/-- The function `select_cheapest_stop` from `utils.py`. -/
def select_cheapest_stop : List CandidateStop → Option CandidateStop
  | [] => none
  | c :: rest => some (minByPrice c rest)

/-- The mutable state of the `while` loop in `find_stops`, with an extra
`searches` field logging every invocation of the candidate finder as the
pair (index `i`, value of `last_stop_distance_from_start` at that moment). -/
structure FindStopsState where
  last_stop_distance_from_start : ℚ
  optimal_stops : List SelectedStop
  searches : List (ℕ × ℚ)
deriving Repr, DecidableEq

/-- One iteration of the `while i < len(route_coords)` loop of `find_stops`. -/
def findStopsStep (hav : Coord → Coord → ℚ) (catalog : List GasStation)
    (route_coords : List Coord) (cumulative_distances : List ℚ)
    (total_route_distance_miles max_range_miles : ℚ)
    (st : FindStopsState) (i : ℕ) : FindStopsState :=
  let current_distance_from_start := cumulative_distances.getD i 0
  let distance_since_last_stop :=
    current_distance_from_start - st.last_stop_distance_from_start
  let current_range := max_range_miles - distance_since_last_stop
  let remaining_distance_total :=
    total_route_distance_miles - current_distance_from_start
  let target_distance_for_next_stop :=
    st.last_stop_distance_from_start + max_range_miles
  let next_stop_target_index :=
    find_route_point_index_by_distance cumulative_distances
      target_distance_for_next_stop i
  let distance_to_next_stop_target_point :=
    cumulative_distances.getD next_stop_target_index 0 - current_distance_from_start
  if remaining_distance_total > current_range ∧
      distance_to_next_stop_target_point > current_range then
    let look_ahead_index :=
      find_route_point_index_by_distance cumulative_distances
        (current_distance_from_start + current_range) i
    let candidate_stations :=
      find_candidate_stations_near_segment hav catalog route_coords i
        look_ahead_index 10 st.last_stop_distance_from_start
    match select_cheapest_stop candidate_stations with
    | some cheapest_stop =>
        { last_stop_distance_from_start := current_distance_from_start
          optimal_stops := st.optimal_stops ++
            [{ location := cheapest_stop.location
               fuel_price_per_gallon := cheapest_stop.fuel_price_per_gallon
               distance_from_start_miles := current_distance_from_start }]
          searches := st.searches ++ [(i, st.last_stop_distance_from_start)] }
    | none =>
        { st with searches := st.searches ++ [(i, st.last_stop_distance_from_start)] }
  else st

/-- The final loop state of `find_stops`. -/
def findStopsState (hav : Coord → Coord → ℚ) (catalog : List GasStation)
    (route_coords : List Coord)
    (total_route_distance_miles max_range_miles : ℚ) : FindStopsState :=
  let cumulative_distances :=
    calculate_cumulative_distances hav route_coords total_route_distance_miles
  (List.range route_coords.length).foldl
    (findStopsStep hav catalog route_coords cumulative_distances
      total_route_distance_miles max_range_miles)
    ⟨0, [], []⟩

/-- The function `find_stops` from `utils.py`: the accumulated stops, deduplicated by
location. -/
def find_stops (hav : Coord → Coord → ℚ) (catalog : List GasStation)
    (route_coords : List Coord)
    (total_route_distance_miles max_range_miles : ℚ) : List SelectedStop :=
  deduplicate_stops_by_location
    (findStopsState hav catalog route_coords total_route_distance_miles
      max_range_miles).optimal_stops

/-- The log of candidate-finder invocations of one `find_stops` run; an entry
`(i, d)` records a search at index `i` while `last_stop_distance_from_start`
was `d`. -/
def findStopsSearchLog (hav : Coord → Coord → ℚ) (catalog : List GasStation)
    (route_coords : List Coord)
    (total_route_distance_miles max_range_miles : ℚ) : List (ℕ × ℚ) :=
  (findStopsState hav catalog route_coords total_route_distance_miles
    max_range_miles).searches

/-! ## `services/route_planner.py` -/

/-- The constant `RoutePlanner.FUEL_EFFICIENCY` (mpg). -/
def FUEL_EFFICIENCY : ℚ := 10

/-- The constant `RoutePlanner.MAX_RANGE` (miles), hard-coded in the class. -/
def MAX_RANGE : ℚ := 1

/-- The constant `RoutePlanner.DEFAULT_PRICE_PER_GALLON` (USD). -/
def DEFAULT_PRICE_PER_GALLON : ℚ := 3

/-- The meters-per-mile constant `1609.34` used in `plan`. -/
def METERS_PER_MILE : ℚ := 160934 / 100

/-- A placeholder stop used only as the default of total `getD`/`getLastD`
lookups whose Python counterparts are plain indexing. -/
def dummyStop : SelectedStop :=
  { location := (0, 0), fuel_price_per_gallon := DEFAULT_PRICE_PER_GALLON
    distance_from_start_miles := 0 }

/-- The inner loop of `_calculate_total_fuel_cost_on_route` that finds the
route-point index closest to a stop (first index attaining the minimum,
since the update uses a strict comparison against the running minimum,
which starts at infinity). -/
def closestRoutePointIndex (hav : Coord → Coord → ℚ) (stop_coords : Coord)
    (route_coords : List Coord) : ℕ :=
  (route_coords.enum.foldl (fun best p =>
    match best.2 with
    | none => (p.1, some (hav stop_coords p.2))
    | some d =>
        let dist := hav stop_coords p.2
        if dist < d then (p.1, some dist) else best)
    ((0 : ℕ), (none : Option ℚ))).1

/-- The sorted waypoint-distance list of `_calculate_total_fuel_cost_on_route`:
`[0]`, the cumulative distance of the route point closest to each stop, and
the total distance, sorted ascending (Python `list.sort`, a stable merge
sort). -/
def sortedWaypoints (hav : Coord → Coord → ℚ) (route_coords : List Coord)
    (total_route_distance_miles : ℚ) (optimal_stops : List SelectedStop) : List ℚ :=
  let cumulative_distances :=
    calculate_cumulative_distances hav route_coords total_route_distance_miles
  let waypoint_distances_along_route :=
    [0] ++ optimal_stops.map (fun stop =>
      cumulative_distances.getD
        (closestRoutePointIndex hav (stop.location.2, stop.location.1) route_coords) 0)
      ++ [total_route_distance_miles]
  waypoint_distances_along_route.mergeSort (fun a b => decide (a ≤ b))

/-- The per-segment price rule of `_calculate_total_fuel_cost_on_route`:
the default price for segment `0`, the price of stop `i-1` when `i-1` is a
valid stop index, and the last stop price otherwise. -/
def segmentPrice (optimal_stops : List SelectedStop) (i : ℕ) : ℚ :=
  if i = 0 then DEFAULT_PRICE_PER_GALLON
  else if i - 1 < optimal_stops.length then
    (optimal_stops.getD (i - 1) dummyStop).fuel_price_per_gallon
  else (optimal_stops.getLastD dummyStop).fuel_price_per_gallon

/-- The method `RoutePlanner._calculate_total_fuel_cost_on_route`. -/
def calculate_total_fuel_cost_on_route (hav : Coord → Coord → ℚ)
    (route_coords : List Coord) (total_route_distance_miles : ℚ)
    (optimal_stops : List SelectedStop) : ℚ :=
  let ws := sortedWaypoints hav route_coords total_route_distance_miles optimal_stops
  (List.range (ws.length - 1)).foldl (fun total_cost i =>
    total_cost + (ws.getD (i + 1) 0 - ws.getD i 0) / FUEL_EFFICIENCY *
      segmentPrice optimal_stops i) 0

/-- The sort `optimal_stops.sort(key=lambda x: x.get('distance_from_start_miles', 0))`
performed by `plan` (every stop dictionary has the key, so the key is the
`distance_from_start_miles` field). -/
def sortStopsByDistance (l : List SelectedStop) : List SelectedStop :=
  l.mergeSort (fun a b =>
    decide (a.distance_from_start_miles ≤ b.distance_from_start_miles))

/-- The observable outcome of the single OpenRouteService GET request made by
`_get_initial_route`: a transport-level failure (`requests` exception), a
failure while parsing the response payload, or a parsed feature list, each
feature carrying (geometry coordinates, distance in meters, duration in
seconds). -/
inductive RouteFetchOutcome where
  | requestFailure (msg : String)
  | processingFailure (msg : String)
  | responseFeatures (features : List (List Coord × ℚ × ℚ))
deriving DecidableEq

/-- The method `RoutePlanner._get_initial_route`: returns the first feature, or the
raised exception message as an error.  A transport failure is wrapped as
`Failed to get initial route from OpenRouteService: ...`; an empty feature
list and payload-processing errors are wrapped as
`Error processing OpenRouteService initial route response: ...`. -/
def get_initial_route : RouteFetchOutcome → Except String (List Coord × ℚ × ℚ)
  | .requestFailure m =>
      .error ("Failed to get initial route from OpenRouteService: " ++ m)
  | .processingFailure m =>
      .error ("Error processing OpenRouteService initial route response: " ++ m)
  | .responseFeatures [] =>
      .error ("Error processing OpenRouteService initial route response: " ++
        "No route features found in initial route response.")
  | .responseFeatures (f :: _) => .ok f

/-- The dictionary returned by `RoutePlanner.plan`: either the error
dictionary (whose single key is the message) or the full plan payload. -/
inductive PlanResult where
  | errorResult (msg : String)
  | success (total_distance_miles total_duration_seconds total_fuel_cost_usd : ℚ)
      (fuel_stops : List SelectedStop) (route_geometry : List (ℚ × ℚ))
deriving DecidableEq

/-- Python `round(x, 2)` (round half to even), on exact rationals. -/
def pyRound2 (x : ℚ) : ℚ :=
  (let f : ℤ := ⌊x * 100⌋
   let r : ℚ := x * 100 - f
   if r < 1 / 2 then (f : ℚ)
   else if 1 / 2 < r then (f : ℚ) + 1
   else if Even f then (f : ℚ) else (f : ℚ) + 1) / 100

/-- The method `RoutePlanner.plan`, as a function of the request outcome: on any failure
from `_get_initial_route` it returns the error dictionary; otherwise it
converts meters to miles, finds the stops with `MAX_RANGE`, sorts them by
distance from start, prices the trip and assembles the payload with the
geometry flipped to `(latitude, longitude)` pairs. -/
def RoutePlanner_plan (hav : Coord → Coord → ℚ) (catalog : List GasStation)
    (outcome : RouteFetchOutcome) : PlanResult :=
  match get_initial_route outcome with
  | .error e => .errorResult ("Could not plan route: " ++ e)
  | .ok (initial_route_coords, initial_distance_m, initial_duration_s) =>
      let initial_distance_miles := initial_distance_m / METERS_PER_MILE
      let optimal_stops := sortStopsByDistance
        (find_stops hav catalog initial_route_coords initial_distance_miles MAX_RANGE)
      let total_fuel_cost := calculate_total_fuel_cost_on_route hav
        initial_route_coords initial_distance_miles optimal_stops
      .success (pyRound2 initial_distance_miles) initial_duration_s
        (pyRound2 total_fuel_cost) optimal_stops
        (initial_route_coords.map (fun coord => (coord.2, coord.1)))

/-! ## Concrete fixtures

A geodesic function and a catalog used for concrete runs of the algorithms.
`cexHav` is the taxicab distance on the coordinate plane: a genuine metric
(symmetric, nonnegative, zero on the diagonal, triangle inequality), so every
configuration below is realisable by great-circle distances of points placed
along a single great circle. -/

/-- Taxicab metric on coordinates, used as a concrete geodesic function. -/
def cexHav (a b : Coord) : ℚ := ratAbs (a.1 - b.1) + ratAbs (a.2 - b.2)

/-- A station at `(longitude, latitude) = (96, 0)`, price 3.00. -/
def stationX : GasStation :=
  { opis_truckstop_id := "X", retail_price := 3
    latitude := some 0, longitude := some 96 }

/-- A station at `(longitude, latitude) = (598, 0)`, price 3.50. -/
def stationY : GasStation :=
  { opis_truckstop_id := "Y", retail_price := 7 / 2
    latitude := some 0, longitude := some 598 }

/-- A two-station catalog. -/
def cexCatalog : List GasStation := [stationX, stationY]

/-- A route along one line with a repeated route point (cumulative distances
`[0, 1, 100, 100, 600]` under `cexHav`). -/
def cexRoute : List Coord := [(0, 0), (1, 0), (100, 0), (100, 0), (600, 0)]

/-- The trigger condition of the `find_stops` loop at index `i` with
last-stop distance `ls`, over a cumulative table `cum`: the remaining trip
distance exceeds the remaining range, and the distance to the route point at
or after `ls + max_range_miles` exceeds the remaining range. -/
def triggerCond (cum : List ℚ) (total_route_distance_miles max_range_miles : ℚ)
    (i : ℕ) (ls : ℚ) : Prop :=
  total_route_distance_miles - cum.getD i 0 >
      max_range_miles - (cum.getD i 0 - ls) ∧
    cum.getD (find_route_point_index_by_distance cum (ls + max_range_miles) i) 0
        - cum.getD i 0 >
      max_range_miles - (cum.getD i 0 - ls)

instance (cum : List ℚ) (t m : ℚ) (i : ℕ) (ls : ℚ) :
    Decidable (triggerCond cum t m i ls) := by
  unfold triggerCond; infer_instance

/-- A candidate priced 3.50 (scenario list of §8). -/
def cand350 : CandidateStop :=
  { location := (1, 1), fuel_price_per_gallon := 7 / 2
    distance_from_start_straight_line_miles := 1, station_obj := stationX }

/-- A candidate priced 3.25 (scenario list of §8). -/
def cand325 : CandidateStop :=
  { location := (2, 2), fuel_price_per_gallon := 13 / 4
    distance_from_start_straight_line_miles := 2, station_obj := stationX }

/-- A candidate priced 3.75 (scenario list of §8). -/
def cand375 : CandidateStop :=
  { location := (3, 3), fuel_price_per_gallon := 15 / 4
    distance_from_start_straight_line_miles := 3, station_obj := stationX }

/-! ## Helper lemmas -/

theorem ratAbs_eq_abs (q : ℚ) : ratAbs q = |q| := by
  rw [ratAbs]
  split_ifs with h
  · exact (abs_of_neg h).symm
  · exact (abs_of_nonneg (le_of_not_lt h)).symm

theorem rawCumulativeAux_length (hav : Coord → Coord → ℚ) :
    ∀ (ps : List Coord) (p : Coord) (acc : ℚ),
      (rawCumulativeAux hav p acc ps).length = ps.length := by
  intro ps
  induction ps with
  | nil => intro p acc; rfl
  | cons q qs ih => intro p acc; simp [rawCumulativeAux, ih]

theorem rawCumulative_length (hav : Coord → Coord → ℚ) (route : List Coord)
    (h : route ≠ []) : (rawCumulative hav route).length = route.length := by
  cases route with
  | nil => exact absurd rfl h
  | cons p ps => simp [rawCumulative, rawCumulativeAux_length]

theorem rawCumulative_ne_nil (hav : Coord → Coord → ℚ) (route : List Coord) :
    rawCumulative hav route ≠ [] := by
  cases route <;> simp [rawCumulative]

theorem rawCumulative_getD_zero (hav : Coord → Coord → ℚ) (route : List Coord) :
    (rawCumulative hav route).getD 0 0 = 0 := by
  cases route <;> rfl

theorem chain'_rawCumulativeAux (hav : Coord → Coord → ℚ)
    (hnn : ∀ a b, 0 ≤ hav a b) :
    ∀ (ps : List Coord) (p : Coord) (acc : ℚ),
      List.Chain' (· ≤ ·) (acc :: rawCumulativeAux hav p acc ps) := by
  intro ps
  induction ps with
  | nil => intro p acc; simp [rawCumulativeAux]
  | cons q qs ih =>
      intro p acc
      rw [rawCumulativeAux]
      exact List.Chain'.cons (le_add_of_nonneg_right (hnn p q)) (ih q (acc + hav p q))

theorem chain'_rawCumulative (hav : Coord → Coord → ℚ)
    (hnn : ∀ a b, 0 ≤ hav a b) (route : List Coord) :
    List.Chain' (· ≤ ·) (rawCumulative hav route) := by
  cases route with
  | nil => simp [rawCumulative]
  | cons p ps => exact chain'_rawCumulativeAux hav hnn ps p 0

/-! ## C4 and C5: properties of `calculate_cumulative_distances` -/

unseal Rat.sub Rat.add Rat.mul Rat.inv in
/-- Claim C4, counterexample: the claim says a route of zero or one point
yields `[0]` for *every* declared total distance; but the correction step of
`calculate_cumulative_distances` overwrites the last (= only) element with
the total whenever `|0 - total| > 1`, so a one-point route with declared
total 400 yields `[400]`. -/
theorem cumulative_short_route_claim_false :
    calculate_cumulative_distances cexHav [(0, 0)] 400 ≠ [0] := by decide

/-- Claim C4, amended: for a route of zero or one point,
`calculate_cumulative_distances` returns the single-element sequence `[0]`
when the declared total is within 1 mile of 0, and `[total]` otherwise. -/
theorem cumulative_short_route (hav : Coord → Coord → ℚ) (route : List Coord)
    (total : ℚ) (h : route.length ≤ 1) :
    calculate_cumulative_distances hav route total =
      if ratAbs (0 - total) > 1 then [total] else [0] := by
  match route, h with
  | [], _ => rfl
  | [p], _ => rfl

unseal Rat.sub Rat.add Rat.mul Rat.inv in
/-- Witness for `cumulative_short_route` at the one-point route `[(0,0)]`
with declared total 400. -/
theorem cumulative_short_route_witness :
    ([((0 : ℚ), (0 : ℚ))] : List Coord).length ≤ 1 ∧
      calculate_cumulative_distances cexHav [(0, 0)] 400 =
        if ratAbs (0 - 400) > 1 then [400] else [0] :=
  ⟨by decide, cumulative_short_route cexHav [(0, 0)] 400 (by decide)⟩

unseal Rat.sub Rat.add Rat.mul Rat.inv in
/-- Claim C5, counterexample: the correction step can make the table
decreasing (declared total 300 against raw cumulative values `[0,500,900]`
gives `[0,500,300]`), and for a one-point route the forced last element is
also the first element, so the first element need not be 0. -/
theorem cumulative_invariants_claim_false :
    ¬ List.Chain' (· ≤ ·)
        (calculate_cumulative_distances cexHav [(0, 0), (500, 0), (900, 0)] 300) ∧
      (calculate_cumulative_distances cexHav [(0, 0)] 400).getD 0 0 ≠ 0 := by
  constructor
  · intro h
    have h1 : calculate_cumulative_distances cexHav [(0, 0), (500, 0), (900, 0)] 300 =
        [0, 500, 300] := by decide
    rw [h1] at h
    have := List.chain'_cons.mp (List.chain'_cons.mp h).2
    exact absurd this.1 (by norm_num)
  · decide

/-- Claim C5, amended: for every nonnegative geodesic function, the table of
`calculate_cumulative_distances`: (i) starts at 0 whenever the route has at
least two points (for shorter routes the single entry may be overwritten by
the declared total); (ii) ends with the declared total whenever the raw sum
differs from it by more than 1 mile; and (iii) is non-decreasing whenever the
correction does not fire or the declared total is at least every earlier
cumulative value. -/
theorem cumulative_invariants (hav : Coord → Coord → ℚ) (route : List Coord)
    (total : ℚ) (hnn : ∀ a b, 0 ≤ hav a b) :
    (2 ≤ route.length →
      (calculate_cumulative_distances hav route total).getD 0 0 = 0) ∧
    (ratAbs ((rawCumulative hav route).getLastD 0 - total) > 1 →
      (calculate_cumulative_distances hav route total).getLastD 0 = total) ∧
    ((ratAbs ((rawCumulative hav route).getLastD 0 - total) ≤ 1 ∨
        ∀ x ∈ (rawCumulative hav route).dropLast, x ≤ total) →
      List.Chain' (· ≤ ·) (calculate_cumulative_distances hav route total)) := by
  rw [calculate_cumulative_distances]
  by_cases hcorr : ratAbs ((rawCumulative hav route).getLastD 0 - total) > 1
  · rw [if_pos hcorr]
    refine ⟨?_, fun _ => List.getLastD_concat _ _ _, ?_⟩
    · intro hlen
      have hne : route ≠ [] := by intro h; rw [h] at hlen; simp at hlen
      have hlen2 : 2 ≤ (rawCumulative hav route).length := by
        rw [rawCumulative_length hav route hne]; exact hlen
      have hdl : 0 < (rawCumulative hav route).dropLast.length := by
        rw [List.length_dropLast]; omega
      rw [List.getD_append _ _ _ _ hdl]
      have h0 : 0 < (rawCumulative hav route).length := by omega
      rw [List.getD_eq_getElem _ _ hdl, List.getElem_dropLast,
        ← List.getD_eq_getElem _ (0 : ℚ) h0]
      exact rawCumulative_getD_zero hav route
    · rintro (h | hall)
      · exact absurd hcorr (not_lt.mpr h)
      · refine List.chain'_append.mpr ⟨?_, List.chain'_singleton _, ?_⟩
        · have hpre := List.dropLast_prefix (rawCumulative hav route)
          exact List.Chain'.prefix (chain'_rawCumulative hav hnn route) hpre
        · intro x hx y hy
          simp only [List.head?_cons, Option.mem_def, Option.some.injEq] at hy
          subst hy
          exact hall x (List.mem_of_mem_getLast? hx)
  · rw [if_neg hcorr]
    refine ⟨fun _ => rawCumulative_getD_zero hav route, ?_, ?_⟩
    · intro h; exact absurd h hcorr
    · intro _; exact chain'_rawCumulative hav hnn route

/-- Witness for `cumulative_invariants` at the fixture route, total 600,
with the taxicab geodesic function. -/
theorem cumulative_invariants_witness :
    (∀ a b : Coord, 0 ≤ cexHav a b) ∧
      (2 ≤ cexRoute.length →
        (calculate_cumulative_distances cexHav cexRoute 600).getD 0 0 = 0) :=
  ⟨fun a b => add_nonneg (by rw [ratAbs_eq_abs]; exact abs_nonneg _)
      (by rw [ratAbs_eq_abs]; exact abs_nonneg _),
    (cumulative_invariants cexHav cexRoute 600
      (fun a b => add_nonneg (by rw [ratAbs_eq_abs]; exact abs_nonneg _)
        (by rw [ratAbs_eq_abs]; exact abs_nonneg _))).1⟩

/-! ## C3: `select_cheapest_stop` -/

/-- The Python `min` fold returns the first element attaining the minimum
key: the input decomposes as a prefix of strictly more expensive candidates,
the result, and a suffix, and the result is a lower bound of all keys. -/
theorem minByPrice_spec (l : List CandidateStop) :
    ∀ c : CandidateStop,
      ∃ l₁ l₂, c :: l = l₁ ++ minByPrice c l :: l₂ ∧
        (∀ d ∈ l₁,
          (minByPrice c l).fuel_price_per_gallon < d.fuel_price_per_gallon) ∧
        ∀ d ∈ c :: l,
          (minByPrice c l).fuel_price_per_gallon ≤ d.fuel_price_per_gallon := by
  induction l with
  | nil =>
      intro c
      refine ⟨[], [], rfl, by simp, ?_⟩
      intro d hd
      have hc : minByPrice c [] = c := rfl
      rw [hc]
      simp only [List.mem_singleton] at hd
      rw [hd]
  | cons x xs ih =>
      intro c
      have hstep : minByPrice c (x :: xs) =
          minByPrice
            (if x.fuel_price_per_gallon < c.fuel_price_per_gallon then x else c)
            xs := rfl
      by_cases h : x.fuel_price_per_gallon < c.fuel_price_per_gallon
      · rw [hstep, if_pos h]
        obtain ⟨l₁, l₂, hdec, hpre, hall⟩ := ih x
        have hle : (minByPrice x xs).fuel_price_per_gallon ≤
            x.fuel_price_per_gallon := hall x (by simp)
        refine ⟨c :: l₁, l₂, ?_, ?_, ?_⟩
        · rw [List.cons_append, ← hdec]
        · intro d hd
          rcases List.mem_cons.mp hd with hd | hd
          · rw [hd]; exact lt_of_le_of_lt hle h
          · exact hpre d hd
        · intro d hd
          rcases List.mem_cons.mp hd with hd | hd
          · rw [hd]; exact le_of_lt (lt_of_le_of_lt hle h)
          · exact hall d hd
      · rw [hstep, if_neg h]
        have hcx : c.fuel_price_per_gallon ≤ x.fuel_price_per_gallon :=
          le_of_not_lt h
        obtain ⟨l₁, l₂, hdec, hpre, hall⟩ := ih c
        cases l₁ with
        | nil =>
            simp only [List.nil_append] at hdec
            have hr : minByPrice c xs = c := (List.cons.inj hdec).1.symm
            refine ⟨[], x :: xs, ?_, by simp, ?_⟩
            · rw [List.nil_append, hr]
            · intro d hd
              rw [hr]
              rcases List.mem_cons.mp hd with hd | hd
              · rw [hd]
              · rcases List.mem_cons.mp hd with hd | hd
                · rw [hd]; exact hcx
                · have := hall d (List.mem_cons_of_mem c hd)
                  rw [hr] at this; exact this
        | cons a l₁' =>
            rw [List.cons_append] at hdec
            obtain ⟨ha, hxs⟩ := List.cons.inj hdec
            have hrc : (minByPrice c xs).fuel_price_per_gallon <
                c.fuel_price_per_gallon := by
              have := hpre a (by simp)
              rw [← ha] at this; exact this
            refine ⟨c :: x :: l₁', l₂, ?_, ?_, ?_⟩
            · rw [List.cons_append, List.cons_append, ← hxs]
            · intro d hd
              rcases List.mem_cons.mp hd with hd | hd
              · rw [hd]; exact hrc
              · rcases List.mem_cons.mp hd with hd | hd
                · rw [hd]; exact lt_of_lt_of_le hrc hcx
                · exact hpre d (List.mem_cons_of_mem a hd)
            · intro d hd
              rcases List.mem_cons.mp hd with hd | hd
              · rw [hd]; exact le_of_lt hrc
              · rcases List.mem_cons.mp hd with hd | hd
                · rw [hd]; exact le_trans (le_of_lt hrc) hcx
                · exact hall d (List.mem_cons_of_mem c hd)

unseal Rat.sub Rat.add Rat.mul Rat.inv in
/-- Claim C3: the function `select_cheapest_stop` returns the candidate with the lowest
price-per-gallon, the first such in encounter order (the witnesses `l₁ l₂`
decompose the input around the result, with every earlier candidate strictly
more expensive); a non-empty list always yields a selection; the scenario
list `[3.50, 3.25, 3.75]` selects price 3.25; the empty list yields `none`. -/
theorem select_cheapest_stop_spec :
    (∀ (cands : List CandidateStop) (c : CandidateStop),
      select_cheapest_stop cands = some c →
      ∃ l₁ l₂, cands = l₁ ++ c :: l₂ ∧
        (∀ d ∈ l₁, c.fuel_price_per_gallon < d.fuel_price_per_gallon) ∧
        ∀ d ∈ cands, c.fuel_price_per_gallon ≤ d.fuel_price_per_gallon) ∧
    (∀ cands : List CandidateStop, cands ≠ [] →
      ∃ c, select_cheapest_stop cands = some c) ∧
    (∃ c, select_cheapest_stop [cand350, cand325, cand375] = some c ∧
      c.fuel_price_per_gallon = 13 / 4) ∧
    select_cheapest_stop ([] : List CandidateStop) = none := by
  refine ⟨?_, ?_, ?_, rfl⟩
  · intro cands c h
    match cands, h with
    | a :: rest, h =>
      have hc : minByPrice a rest = c := by
        simpa [select_cheapest_stop] using h
      obtain ⟨l₁, l₂, hdec, hpre, hall⟩ := minByPrice_spec rest a
      rw [hc] at hdec hpre hall
      exact ⟨l₁, l₂, hdec, hpre, hall⟩
  · intro cands h
    match cands, h with
    | a :: rest, _ => exact ⟨minByPrice a rest, rfl⟩
  · exact ⟨cand325, by decide, by decide⟩

unseal Rat.sub Rat.add Rat.mul Rat.inv in
/-- Witness for `select_cheapest_stop_spec` on the concrete scenario list:
the selection equation holds and the decomposition exists. -/
theorem select_cheapest_stop_spec_witness :
    select_cheapest_stop [cand350, cand325, cand375] = some cand325 ∧
      ∃ l₁ l₂, [cand350, cand325, cand375] = l₁ ++ cand325 :: l₂ ∧
        (∀ d ∈ l₁,
          cand325.fuel_price_per_gallon < d.fuel_price_per_gallon) ∧
        ∀ d ∈ [cand350, cand325, cand375],
          cand325.fuel_price_per_gallon ≤ d.fuel_price_per_gallon :=
  ⟨by decide,
    select_cheapest_stop_spec.1 [cand350, cand325, cand375] cand325 (by decide)⟩

/-! ## C1: the stop-search trigger condition -/

/-- Every entry of the search log satisfies the trigger condition: the fold
preserves the invariant because an entry is appended exactly under the
`if` guard of the loop body. -/
theorem searchLog_cond (hav : Coord → Coord → ℚ) (catalog : List GasStation)
    (route : List Coord) (cum : List ℚ) (total maxR : ℚ) :
    ∀ (l : List ℕ) (st : FindStopsState),
      (∀ e ∈ st.searches, triggerCond cum total maxR e.1 e.2) →
      ∀ e ∈ (l.foldl (findStopsStep hav catalog route cum total maxR) st).searches,
        triggerCond cum total maxR e.1 e.2 := by
  intro l
  induction l with
  | nil => intro st h; simpa using h
  | cons i rest ih =>
      intro st h
      rw [List.foldl_cons]
      apply ih
      intro e he
      simp only [findStopsStep] at he
      split at he
      case isTrue hcond =>
        have hc2 : triggerCond cum total maxR i st.last_stop_distance_from_start :=
          ⟨hcond.1, hcond.2⟩
        split at he
        all_goals simp only [List.mem_append, List.mem_singleton] at he
        all_goals rcases he with he | he
        · exact h e he
        · rw [he]; exact hc2
        · exact h e he
        · rw [he]; exact hc2
      case isFalse hcond => exact h e he

/-- The first entry of the cumulative table of a route with at least two
points is 0 (the correction only touches the last entry). -/
theorem calculate_getD_zero (hav : Coord → Coord → ℚ) (route : List Coord)
    (total : ℚ) (hlen : 2 ≤ route.length) :
    (calculate_cumulative_distances hav route total).getD 0 0 = 0 := by
  rw [calculate_cumulative_distances]
  by_cases hcorr : ratAbs ((rawCumulative hav route).getLastD 0 - total) > 1
  · rw [if_pos hcorr]
    have hne : route ≠ [] := by intro h; rw [h] at hlen; simp at hlen
    have hlen2 : 2 ≤ (rawCumulative hav route).length := by
      rw [rawCumulative_length hav route hne]; exact hlen
    have hdl : 0 < (rawCumulative hav route).dropLast.length := by
      rw [List.length_dropLast]; omega
    have h0 : 0 < (rawCumulative hav route).length := by omega
    rw [List.getD_append _ _ _ _ hdl]
    rw [List.getD_eq_getElem _ _ hdl, List.getElem_dropLast,
      ← List.getD_eq_getElem _ (0 : ℚ) h0]
    exact rawCumulative_getD_zero hav route
  · rw [if_neg hcorr]
    exact rawCumulative_getD_zero hav route

/-- A loop iteration whose first trigger conjunct fails leaves the state
unchanged. -/
theorem findStopsStep_not_triggered (hav : Coord → Coord → ℚ)
    (catalog : List GasStation) (route : List Coord) (cum : List ℚ)
    (total maxR : ℚ) (st : FindStopsState) (i : ℕ)
    (h : ¬(total - cum.getD i 0 >
        maxR - (cum.getD i 0 - st.last_stop_distance_from_start))) :
    findStopsStep hav catalog route cum total maxR st i = st := by
  simp only [findStopsStep]
  exact if_neg (fun hc => h hc.1)

/-- Claim C1: a candidate search happens at index `i` (with last-stop distance
`ls`) only when both the remaining trip distance and the distance to the
next-stop-target point strictly exceed the remaining range; and on a 2-point
route of declared total 400 with max range 500, no stop is selected and the
candidate finder is never invoked. -/
theorem find_stops_trigger_spec :
    (∀ (hav : Coord → Coord → ℚ) (catalog : List GasStation)
        (route : List Coord) (total maxR : ℚ) (i : ℕ) (ls : ℚ),
      (i, ls) ∈ findStopsSearchLog hav catalog route total maxR →
      total - (calculate_cumulative_distances hav route total).getD i 0 >
          maxR - ((calculate_cumulative_distances hav route total).getD i 0 - ls) ∧
        (calculate_cumulative_distances hav route total).getD
            (find_route_point_index_by_distance
              (calculate_cumulative_distances hav route total) (ls + maxR) i) 0 -
            (calculate_cumulative_distances hav route total).getD i 0 >
          maxR - ((calculate_cumulative_distances hav route total).getD i 0 - ls)) ∧
    (∀ (hav : Coord → Coord → ℚ) (catalog : List GasStation) (p q : Coord),
      find_stops hav catalog [p, q] 400 500 = [] ∧
      findStopsSearchLog hav catalog [p, q] 400 500 = []) := by
  constructor
  · intro hav catalog route total maxR i ls he
    exact searchLog_cond hav catalog route
      (calculate_cumulative_distances hav route total) total maxR
      (List.range route.length) ⟨0, [], []⟩ (by simp) (i, ls) he
  · intro hav catalog p q
    have h0 : (calculate_cumulative_distances hav [p, q] 400).getD 0 0 = 0 :=
      calculate_getD_zero hav [p, q] 400 (by simp)
    have hng : ∀ x : ℚ, ¬(400 - x > 500 - (x - 0)) := by
      intro x; push_neg; linarith
    have hstate : findStopsState hav catalog [p, q] 400 500 = ⟨0, [], []⟩ := by
      rw [findStopsState]
      show (List.range 2).foldl
        (findStopsStep hav catalog [p, q]
          (calculate_cumulative_distances hav [p, q] 400) 400 500) ⟨0, [], []⟩ =
        ⟨0, [], []⟩
      have hr2 : List.range 2 = [0, 1] := rfl
      rw [hr2, List.foldl_cons, List.foldl_cons, List.foldl_nil]
      rw [findStopsStep_not_triggered hav catalog [p, q] _ 400 500 ⟨0, [], []⟩ 0
        (by rw [h0]; norm_num)]
      rw [findStopsStep_not_triggered hav catalog [p, q] _ 400 500 ⟨0, [], []⟩ 1
        (hng _)]
    constructor
    · rw [find_stops, hstate]; rfl
    · rw [findStopsSearchLog, hstate]

unseal Rat.sub Rat.add Rat.mul Rat.inv in
/-- Witness for `find_stops_trigger_spec`: on the fixture route a search is
logged at index 2 with last-stop distance 0, and the trigger condition holds
there. -/
theorem find_stops_trigger_spec_witness :
    ((2 : ℕ), (0 : ℚ)) ∈ findStopsSearchLog cexHav cexCatalog cexRoute 600 1 ∧
      (600 - (calculate_cumulative_distances cexHav cexRoute 600).getD 2 0 >
          1 - ((calculate_cumulative_distances cexHav cexRoute 600).getD 2 0 - 0) ∧
        (calculate_cumulative_distances cexHav cexRoute 600).getD
            (find_route_point_index_by_distance
              (calculate_cumulative_distances cexHav cexRoute 600) (0 + 1) 2) 0 -
            (calculate_cumulative_distances cexHav cexRoute 600).getD 2 0 >
          1 - ((calculate_cumulative_distances cexHav cexRoute 600).getD 2 0 - 0)) :=
  ⟨by decide, find_stops_trigger_spec.1 cexHav cexCatalog cexRoute 600 1 2 0 (by decide)⟩

/-! ## C2: the candidate finder -/

/-- A candidate produced from a station carries that station. -/
theorem candidateOf_station (hav : Coord → Coord → ℚ) (route : List Coord)
    (s e : ℕ) (thr ls : ℚ) (st : GasStation) (c : CandidateStop)
    (h : candidateOf hav route s e thr ls st = some c) : c.station_obj = st := by
  simp only [candidateOf] at h
  split at h
  · split at h
    · rw [Option.some.injEq] at h; rw [← h]
    · exact absurd h (by simp)
  · exact absurd h (by simp)

/-- Membership in `range' s (e + 1 - s)` is exactly `s ≤ k ≤ e`. -/
theorem mem_range'_iff (s e k : ℕ) :
    k ∈ List.range' s (e + 1 - s) ↔ s ≤ k ∧ k ≤ e := by
  rw [List.mem_range']
  constructor
  · rintro ⟨i, hi, rfl⟩; omega
  · rintro ⟨h1, h2⟩; exact ⟨k - s, by omega, by omega⟩

/-- Claim C2: for a segment `[s, e]` within the route, a station is carried by
a returned candidate iff it is in the catalog, has both coordinates present,
lies strictly within the proximity threshold of some route point of the
segment, and its straight-line distance from the route's first point strictly
exceeds the last-stop distance. -/
theorem candidate_finder_spec (hav : Coord → Coord → ℚ)
    (catalog : List GasStation) (route : List Coord) (s e : ℕ) (thr ls : ℚ)
    (st : GasStation) (he : e < route.length) :
    (∃ c ∈ find_candidate_stations_near_segment hav catalog route s e thr ls,
        c.station_obj = st) ↔
      st ∈ catalog ∧ ∃ lat lon, st.latitude = some lat ∧ st.longitude = some lon ∧
        (∃ k, s ≤ k ∧ k ≤ e ∧ hav (lon, lat) (route.getD k (0, 0)) < thr) ∧
        hav (route.getD 0 (0, 0)) (lon, lat) > ls := by
  constructor
  · rintro ⟨c, hc, hcst⟩
    rw [find_candidate_stations_near_segment] at hc
    obtain ⟨a, ha, hfa⟩ := List.mem_filterMap.mp hc
    obtain ⟨hacat, hacoords⟩ := List.mem_filter.mp ha
    have hsta : a = st := by rw [← hcst, candidateOf_station hav route s e thr ls a c hfa]
    subst hsta
    simp only [hasCoords, Bool.and_eq_true, Option.isSome_iff_exists] at hacoords
    obtain ⟨⟨lat, hlat⟩, ⟨lon, hlon⟩⟩ := hacoords
    have hsc : stationCoords a = (lon, lat) := by
      simp [stationCoords, hlat, hlon]
    refine ⟨hacat, lat, lon, hlat, hlon, ?_, ?_⟩
    · simp only [candidateOf, hsc] at hfa
      split at hfa
      case isFalse => exact absurd hfa (by simp)
      case isTrue hnear =>
        obtain ⟨k, hkmem, hkp⟩ := List.any_eq_true.mp hnear
        rw [decide_eq_true_eq] at hkp
        obtain ⟨hk1, hk2⟩ := (mem_range'_iff s e k).mp hkmem
        exact ⟨k, hk1, hk2, hkp⟩
    · simp only [candidateOf, hsc] at hfa
      split at hfa
      case isFalse => exact absurd hfa (by simp)
      case isTrue =>
        split at hfa
        case isFalse => exact absurd hfa (by simp)
        case isTrue hahead => exact hahead
  · rintro ⟨hcat, lat, lon, hlat, hlon, ⟨k, hk1, hk2, hknear⟩, hahead⟩
    have hcoords : hasCoords st = true := by
      simp [hasCoords, hlat, hlon]
    have hsc : stationCoords st = (lon, lat) := by
      simp [stationCoords, hlat, hlon]
    have hnear : (List.range' s (e + 1 - s)).any
        (fun j => decide (hav (stationCoords st) (route.getD j (0, 0)) < thr)) = true := by
      refine List.any_eq_true.mpr ⟨k, (mem_range'_iff s e k).mpr ⟨hk1, hk2⟩, ?_⟩
      rw [hsc]
      exact decide_eq_true hknear
    have hcand : candidateOf hav route s e thr ls st =
        some { location := (st.latitude.getD 0, st.longitude.getD 0)
               fuel_price_per_gallon := st.retail_price
               distance_from_start_straight_line_miles :=
                 hav (route.getD 0 (0, 0)) (stationCoords st)
               station_obj := st } := by
      simp only [candidateOf]
      rw [if_pos hnear, if_pos (by rw [hsc]; exact hahead)]
    refine ⟨{ location := (st.latitude.getD 0, st.longitude.getD 0)
              fuel_price_per_gallon := st.retail_price
              distance_from_start_straight_line_miles :=
                hav (route.getD 0 (0, 0)) (stationCoords st)
              station_obj := st }, ?_, rfl⟩
    rw [find_candidate_stations_near_segment]
    exact List.mem_filterMap.mpr
      ⟨st, List.mem_filter.mpr ⟨hcat, hcoords⟩, hcand⟩

unseal Rat.sub Rat.add Rat.mul Rat.inv in
/-- Witness for `candidate_finder_spec` with station X near the second point
of a two-point route. -/
theorem candidate_finder_spec_witness :
    (1 : ℕ) < ([((0 : ℚ), (0 : ℚ)), (100, 0)] : List Coord).length ∧
      ((∃ c ∈ find_candidate_stations_near_segment cexHav [stationX]
          [(0, 0), (100, 0)] 0 1 10 0, c.station_obj = stationX) ↔
        stationX ∈ [stationX] ∧ ∃ lat lon, stationX.latitude = some lat ∧
          stationX.longitude = some lon ∧
          (∃ k, 0 ≤ k ∧ k ≤ 1 ∧
            cexHav (lon, lat) (([((0 : ℚ), (0 : ℚ)), (100, 0)] : List Coord).getD k (0, 0)) < 10) ∧
          cexHav (([((0 : ℚ), (0 : ℚ)), (100, 0)] : List Coord).getD 0 (0, 0)) (lon, lat) > 0) :=
  ⟨by decide,
    candidate_finder_spec cexHav [stationX] [(0, 0), (100, 0)] 0 1 10 0 stationX
      (by decide)⟩

/-! ## C6: ordering and deduplication of the final stop list -/

/-- Forward direction of the dedup characterisation: every kept stop is the
first occurrence of its location (relative to the `seen` set). -/
theorem dedupGo_mem_fwd :
    ∀ (l : List SelectedStop) (seen : List (ℚ × ℚ)) (s : SelectedStop),
      s ∈ dedupGo seen l →
      s.location ∉ seen ∧
        ∃ l₁ l₂, l = l₁ ++ s :: l₂ ∧ ∀ t ∈ l₁, t.location ≠ s.location := by
  intro l
  induction l with
  | nil => intro seen s h; simp [dedupGo] at h
  | cons x rest ih =>
      intro seen s h
      rw [dedupGo] at h
      by_cases hx : x.location ∈ seen
      · rw [if_pos hx] at h
        obtain ⟨hns, l₁, l₂, hdec, hpre⟩ := ih seen s h
        refine ⟨hns, x :: l₁, l₂, by rw [hdec, List.cons_append], ?_⟩
        intro t ht
        rcases List.mem_cons.mp ht with ht | ht
        · rw [ht]; intro e; rw [e] at hx; exact hns hx
        · exact hpre t ht
      · rw [if_neg hx] at h
        rcases List.mem_cons.mp h with h | h
        · exact ⟨by rw [h]; exact hx, [], rest, by rw [h]; rfl, by simp⟩
        · obtain ⟨hns, l₁, l₂, hdec, hpre⟩ := ih (x.location :: seen) s h
          have hns2 : s.location ∉ seen := fun e => hns (List.mem_cons_of_mem _ e)
          have hxs : x.location ≠ s.location := fun e =>
            hns (by rw [← e]; exact List.mem_cons_self _ _)
          refine ⟨hns2, x :: l₁, l₂, by rw [hdec, List.cons_append], ?_⟩
          intro t ht
          rcases List.mem_cons.mp ht with ht | ht
          · rw [ht]; exact hxs
          · exact hpre t ht

/-- Backward direction of the dedup characterisation: the first occurrence of
a location (relative to `seen`) is kept. -/
theorem dedupGo_mem_bwd :
    ∀ (l₁ : List SelectedStop) (seen : List (ℚ × ℚ)) (s : SelectedStop)
      (l₂ : List SelectedStop),
      s.location ∉ seen →
      (∀ t ∈ l₁, t.location ∈ seen ∨ t.location ≠ s.location) →
      s ∈ dedupGo seen (l₁ ++ s :: l₂) := by
  intro l₁
  induction l₁ with
  | nil =>
      intro seen s l₂ hns _
      rw [List.nil_append, dedupGo, if_neg hns]
      exact List.mem_cons_self _ _
  | cons x l₁' ih =>
      intro seen s l₂ hns hpre
      rw [List.cons_append, dedupGo]
      by_cases hx : x.location ∈ seen
      · rw [if_pos hx]
        exact ih seen s l₂ hns (fun t ht => hpre t (List.mem_cons_of_mem x ht))
      · rw [if_neg hx]
        have hxs : x.location ≠ s.location := by
          rcases hpre x (List.mem_cons_self x l₁') with h | h
          · exact absurd h hx
          · exact h
        refine List.mem_cons_of_mem x (ih (x.location :: seen) s l₂ ?_ ?_)
        · intro e
          rcases List.mem_cons.mp e with e | e
          · exact hxs e.symm
          · exact hns e
        · intro t ht
          rcases hpre t (List.mem_cons_of_mem x ht) with h | h
          · exact Or.inl (List.mem_cons_of_mem _ h)
          · exact Or.inr h

/-- The deduplicated list has pairwise distinct locations. -/
theorem dedupGo_pairwise :
    ∀ (l : List SelectedStop) (seen : List (ℚ × ℚ)),
      (dedupGo seen l).Pairwise (fun a b => a.location ≠ b.location) := by
  intro l
  induction l with
  | nil => intro seen; simp [dedupGo]
  | cons x rest ih =>
      intro seen
      rw [dedupGo]
      by_cases hx : x.location ∈ seen
      · rw [if_pos hx]; exact ih seen
      · rw [if_neg hx]
        refine List.pairwise_cons.mpr ⟨?_, ih _⟩
        intro t ht
        have hnm := (dedupGo_mem_fwd rest (x.location :: seen) t ht).1
        intro e
        exact hnm (by rw [← e]; exact List.mem_cons_self _ _)

/-- Claim C6, amended: after deduplication and the Trip Planner sort, the stop
list is non-decreasing by distance-from-start (not strictly increasing, see
the counterexample) and has pairwise distinct locations; membership in the
deduplicated list is exactly being the first occurrence of a location in the
accumulated stop list. -/
theorem stops_sorted_dedup_spec (hav : Coord → Coord → ℚ)
    (catalog : List GasStation) (route : List Coord) (total maxR : ℚ) :
    (sortStopsByDistance (find_stops hav catalog route total maxR)).Pairwise
        (fun a b => a.distance_from_start_miles ≤ b.distance_from_start_miles) ∧
      (sortStopsByDistance (find_stops hav catalog route total maxR)).Pairwise
        (fun a b => a.location ≠ b.location) ∧
      ∀ s, s ∈ find_stops hav catalog route total maxR ↔
        ∃ l₁ l₂,
          (findStopsState hav catalog route total maxR).optimal_stops =
            l₁ ++ s :: l₂ ∧
          ∀ t ∈ l₁, t.location ≠ s.location := by
  refine ⟨?_, ?_, ?_⟩
  · rw [sortStopsByDistance]
    have hs := @List.sorted_mergeSort SelectedStop
      (fun a b => decide (a.distance_from_start_miles ≤ b.distance_from_start_miles))
      (fun a b c hab hbc => decide_eq_true
        (le_trans (of_decide_eq_true hab) (of_decide_eq_true hbc)))
      (fun a b => by
        rcases le_total a.distance_from_start_miles b.distance_from_start_miles
          with h | h <;> simp [h])
      (find_stops hav catalog route total maxR)
    exact hs.imp (fun h => of_decide_eq_true h)
  · rw [sortStopsByDistance]
    have hperm := List.mergeSort_perm (find_stops hav catalog route total maxR)
      (fun a b => decide (a.distance_from_start_miles ≤ b.distance_from_start_miles))
    exact (List.Perm.pairwise_iff (fun h => Ne.symm h) hperm).mpr
      (dedupGo_pairwise _ [])
  · intro s
    constructor
    · intro hs
      obtain ⟨_, l₁, l₂, hdec, hpre⟩ :=
        dedupGo_mem_fwd ((findStopsState hav catalog route total maxR).optimal_stops)
          [] s hs
      exact ⟨l₁, l₂, hdec, hpre⟩
    · rintro ⟨l₁, l₂, hdec, hpre⟩
      rw [find_stops, deduplicate_stops_by_location, hdec]
      exact dedupGo_mem_bwd l₁ [] s l₂ (by simp)
        (fun t ht => Or.inr (hpre t ht))

unseal Rat.sub Rat.add Rat.mul Rat.inv in
/-- Claim C6, counterexample: on a route with a repeated route point the
selector can select two different stations at the same trigger distance
(station X at index 2 and station Y at index 3, both at cumulative distance
100), so the sorted, deduplicated list is not *strictly* increasing by
distance-from-start. -/
theorem stops_strictly_increasing_claim_false :
    ¬ (sortStopsByDistance (find_stops cexHav cexCatalog cexRoute 600 1)).Pairwise
        (fun a b => a.distance_from_start_miles < b.distance_from_start_miles) := by
  intro h
  have hfs : find_stops cexHav cexCatalog cexRoute 600 1 =
      [{ location := (0, 96), fuel_price_per_gallon := 3,
         distance_from_start_miles := 100 },
       { location := (0, 598), fuel_price_per_gallon := 7 / 2,
         distance_from_start_miles := 100 }] := by decide
  have hsorted : sortStopsByDistance
      [{ location := (0, 96), fuel_price_per_gallon := 3,
         distance_from_start_miles := 100 },
       ({ location := (0, 598), fuel_price_per_gallon := 7 / 2,
          distance_from_start_miles := 100 } : SelectedStop)] =
      [{ location := (0, 96), fuel_price_per_gallon := 3,
         distance_from_start_miles := 100 },
       { location := (0, 598), fuel_price_per_gallon := 7 / 2,
         distance_from_start_miles := 100 }] := by
    rw [sortStopsByDistance]
    exact List.mergeSort_of_sorted (by decide)
  rw [hfs, hsorted] at h
  have h2 := (List.pairwise_cons.mp h).1
    { location := (0, 598), fuel_price_per_gallon := 7 / 2,
      distance_from_start_miles := 100 } (by simp)
  exact absurd h2 (by decide)

/-! ## C7: the cost integrator -/

/-- Folding additions equals adding the sum of the mapped list. -/
theorem foldl_add_eq_sum (f : ℕ → ℚ) :
    ∀ (l : List ℕ) (a : ℚ), l.foldl (fun acc i => acc + f i) a = a + (l.map f).sum := by
  intro l
  induction l with
  | nil => intro a; simp
  | cons x xs ih =>
      intro a
      rw [List.foldl_cons, ih, List.map_cons, List.sum_cons]
      ring

/-- The waypoint list of the cost integrator is sorted ascending. -/
theorem sortedWaypoints_pairwise (hav : Coord → Coord → ℚ) (route : List Coord)
    (total : ℚ) (stops : List SelectedStop) :
    (sortedWaypoints hav route total stops).Pairwise (· ≤ ·) := by
  simp only [sortedWaypoints]
  exact (@List.sorted_mergeSort ℚ (fun a b => decide (a ≤ b))
      (fun a b c hab hbc => decide_eq_true
        (le_trans (of_decide_eq_true hab) (of_decide_eq_true hbc)))
      (fun a b => by rcases le_total a b with h | h <;> simp [h]) _).imp
    (fun h => of_decide_eq_true h)

/-- The segment price is nonnegative when all stop prices are. -/
theorem segmentPrice_nonneg (stops : List SelectedStop)
    (hpos : ∀ s ∈ stops, 0 ≤ s.fuel_price_per_gallon) (i : ℕ) :
    0 ≤ segmentPrice stops i := by
  rw [segmentPrice]
  split_ifs with h1 h2
  · norm_num [DEFAULT_PRICE_PER_GALLON]
  · apply hpos
    rw [List.getD_eq_getElem _ _ h2]
    exact List.getElem_mem h2
  · rcases eq_or_ne stops [] with he | he
    · rw [he]
      norm_num [List.getLastD, dummyStop, DEFAULT_PRICE_PER_GALLON]
    · apply hpos
      rw [List.getLastD_eq_getLast?, List.getLast?_eq_getLast stops he,
        Option.getD_some]
      exact List.getLast_mem he

/-- Claim C7: the cost integrator returns the sum over consecutive sorted
waypoint pairs of `(segment distance / 10) · segment price`, with the
per-segment price rule of `segmentPrice`; the result is nonnegative whenever
all stop prices are; and a single-segment trip of 100 miles with no stops
costs exactly 30. -/
theorem fuel_cost_spec (hav : Coord → Coord → ℚ) (route : List Coord)
    (total : ℚ) (stops : List SelectedStop)
    (hpos : ∀ s ∈ stops, 0 ≤ s.fuel_price_per_gallon) :
    calculate_total_fuel_cost_on_route hav route total stops =
        ((List.range ((sortedWaypoints hav route total stops).length - 1)).map
          (fun k =>
            ((sortedWaypoints hav route total stops).getD (k + 1) 0 -
                (sortedWaypoints hav route total stops).getD k 0) /
              FUEL_EFFICIENCY * segmentPrice stops k)).sum ∧
      0 ≤ calculate_total_fuel_cost_on_route hav route total stops ∧
      calculate_total_fuel_cost_on_route hav route 100 [] = 30 := by
  have hform : calculate_total_fuel_cost_on_route hav route total stops =
      ((List.range ((sortedWaypoints hav route total stops).length - 1)).map
        (fun k =>
          ((sortedWaypoints hav route total stops).getD (k + 1) 0 -
              (sortedWaypoints hav route total stops).getD k 0) /
            FUEL_EFFICIENCY * segmentPrice stops k)).sum := by
    rw [calculate_total_fuel_cost_on_route]
    rw [foldl_add_eq_sum (fun k =>
      ((sortedWaypoints hav route total stops).getD (k + 1) 0 -
          (sortedWaypoints hav route total stops).getD k 0) /
        FUEL_EFFICIENCY * segmentPrice stops k)]
    rw [zero_add]
  refine ⟨hform, ?_, ?_⟩
  · rw [hform]
    apply List.sum_nonneg
    intro x hx
    obtain ⟨k, hk, rfl⟩ := List.mem_map.mp hx
    rw [List.mem_range] at hk
    have hk1 : k + 1 < (sortedWaypoints hav route total stops).length := by omega
    have hk0 : k < (sortedWaypoints hav route total stops).length := by omega
    have hle : (sortedWaypoints hav route total stops).getD k 0 ≤
        (sortedWaypoints hav route total stops).getD (k + 1) 0 := by
      rw [List.getD_eq_getElem _ _ hk0, List.getD_eq_getElem _ _ hk1]
      exact (List.pairwise_iff_getElem.mp
        (sortedWaypoints_pairwise hav route total stops)) k (k + 1) hk0 hk1
        (by omega)
    apply mul_nonneg
    · apply div_nonneg
      · exact sub_nonneg.mpr hle
      · norm_num [FUEL_EFFICIENCY]
    · exact segmentPrice_nonneg stops hpos k
  · have hws : sortedWaypoints hav route 100 [] = [0, 100] := by
      simp only [sortedWaypoints, List.map_nil, List.nil_append, List.append_nil]
      exact List.mergeSort_of_sorted (by decide)
    rw [calculate_total_fuel_cost_on_route, hws]
    have hr1 : List.range ((2 : ℕ) - 1) = [0] := rfl
    show ([0] : List ℕ).foldl _ 0 = 30
    rw [List.foldl_cons, List.foldl_nil]
    norm_num [segmentPrice, DEFAULT_PRICE_PER_GALLON, FUEL_EFFICIENCY]

/-- Witness for `fuel_cost_spec` with no stops on a two-point route. -/
theorem fuel_cost_spec_witness :
    (∀ s ∈ ([] : List SelectedStop), 0 ≤ s.fuel_price_per_gallon) ∧
      0 ≤ calculate_total_fuel_cost_on_route cexHav [(0, 0), (1, 0)] 100 [] :=
  ⟨by simp, (fuel_cost_spec cexHav [(0, 0), (1, 0)] 100 [] (by simp)).2.1⟩

/-! ## C8: error handling in `plan` -/

/-- Claim C8: whenever `_get_initial_route` fails (transport failure,
payload-processing failure, or empty feature list), `plan` returns the error
dictionary carrying the wrapped descriptive message — and in particular never
a success payload (no distance, stop, or cost fields). -/
theorem plan_error_spec (hav : Coord → Coord → ℚ) (catalog : List GasStation)
    (outcome : RouteFetchOutcome) (e : String)
    (h : get_initial_route outcome = .error e) :
    RoutePlanner_plan hav catalog outcome =
        .errorResult ("Could not plan route: " ++ e) ∧
      (∀ d dur c st g, RoutePlanner_plan hav catalog outcome ≠
        PlanResult.success d dur c st g) ∧
      (∀ m, get_initial_route (.requestFailure m) =
        .error ("Failed to get initial route from OpenRouteService: " ++ m)) ∧
      (∀ m, get_initial_route (.processingFailure m) =
        .error ("Error processing OpenRouteService initial route response: " ++ m)) ∧
      get_initial_route (.responseFeatures []) =
        .error ("Error processing OpenRouteService initial route response: " ++
          "No route features found in initial route response.") := by
  have hmain : RoutePlanner_plan hav catalog outcome =
      .errorResult ("Could not plan route: " ++ e) := by
    rw [RoutePlanner_plan, h]
  refine ⟨hmain, ?_, fun m => rfl, fun m => rfl, rfl⟩
  intro d dur c st g
  rw [hmain]
  intro hcontra
  exact PlanResult.noConfusion hcontra

/-- Witness for `plan_error_spec` at a concrete transport failure. -/
theorem plan_error_spec_witness :
    get_initial_route (.requestFailure "boom") =
        .error ("Failed to get initial route from OpenRouteService: " ++ "boom") ∧
      RoutePlanner_plan cexHav cexCatalog (.requestFailure "boom") =
        .errorResult ("Could not plan route: " ++
          ("Failed to get initial route from OpenRouteService: " ++ "boom")) :=
  ⟨rfl, (plan_error_spec cexHav cexCatalog (.requestFailure "boom")
    ("Failed to get initial route from OpenRouteService: " ++ "boom") rfl).1⟩

/-! ## C9: domain safety of the haversine formula -/

/-- The haversine intermediate value lies in `[0, 1]` for all real angles:
it equals `(1 - (sin α sin β + cos α cos β cos d)) / 2`, and the inner
expression is bounded by 1 in absolute value. -/
theorem havA_bound (a b d : ℝ) :
    0 ≤ Real.sin ((b - a) / 2) ^ 2 +
        Real.cos a * Real.cos b * Real.sin (d / 2) ^ 2 ∧
      Real.sin ((b - a) / 2) ^ 2 +
        Real.cos a * Real.cos b * Real.sin (d / 2) ^ 2 ≤ 1 := by
  have hhalf : ∀ y : ℝ, Real.sin (y / 2) ^ 2 = 1 / 2 - Real.cos y / 2 := by
    intro y
    have h := Real.sin_sq_eq_half_sub (y / 2)
    rw [show (2 : ℝ) * (y / 2) = y by ring] at h
    exact h
  rw [hhalf, hhalf, Real.cos_sub]
  have hca := Real.sin_sq_add_cos_sq a
  have hcb := Real.sin_sq_add_cos_sq b
  have hd1 := Real.neg_one_le_cos d
  have hd2 := Real.cos_le_one d
  have hu2 : Real.cos d ^ 2 ≤ 1 := by nlinarith
  have h3 : 0 ≤ Real.cos a ^ 2 * (1 - Real.cos d ^ 2) :=
    mul_nonneg (sq_nonneg _) (by linarith)
  have hkey : (1 : ℝ) -
      (Real.sin a * Real.sin b + Real.cos a * Real.cos b * Real.cos d) ^ 2 =
      (Real.sin a * Real.cos b - Real.cos a * Real.sin b * Real.cos d) ^ 2 +
        Real.cos a ^ 2 * (1 - Real.cos d ^ 2) := by
    linear_combination (-1 : ℝ) * hca -
      (Real.sin a ^ 2 + Real.cos a ^ 2 * Real.cos d ^ 2) * hcb
  have hE1 : Real.sin a * Real.sin b + Real.cos a * Real.cos b * Real.cos d ≤ 1 := by
    nlinarith [hkey, sq_nonneg (Real.sin a * Real.cos b -
        Real.cos a * Real.sin b * Real.cos d), h3,
      sq_nonneg (1 - (Real.sin a * Real.sin b +
        Real.cos a * Real.cos b * Real.cos d))]
  have hE2 : (-1 : ℝ) ≤
      Real.sin a * Real.sin b + Real.cos a * Real.cos b * Real.cos d := by
    nlinarith [hkey, sq_nonneg (Real.sin a * Real.cos b -
        Real.cos a * Real.sin b * Real.cos d), h3,
      sq_nonneg (1 + (Real.sin a * Real.sin b +
        Real.cos a * Real.cos b * Real.cos d))]
  constructor
  · nlinarith [hE1]
  · nlinarith [hE2]

/-- Claim C9: for every pair of real coordinates, the argument of `sqrt` in
`haversine` is nonnegative and at most 1, and the argument of `asin` (the
square root) lies in `[0, 1] ⊆ [-1, 1]`: the formula never leaves the domain
of `math.sqrt` or `math.asin`, for any finite inputs, antipodal and polar
pairs included. -/
theorem haversine_domain_safe (coord1 coord2 : ℝ × ℝ) :
    0 ≤ haversineA coord1 coord2 ∧ haversineA coord1 coord2 ≤ 1 ∧
      0 ≤ Real.sqrt (haversineA coord1 coord2) ∧
      Real.sqrt (haversineA coord1 coord2) ≤ 1 := by
  have hb := havA_bound (radians coord1.2) (radians coord2.2)
    (radians coord2.1 - radians coord1.1)
  have h0 : 0 ≤ haversineA coord1 coord2 := by
    rw [haversineA]; exact hb.1
  have h1 : haversineA coord1 coord2 ≤ 1 := by
    rw [haversineA]; exact hb.2
  refine ⟨h0, h1, Real.sqrt_nonneg _, ?_⟩
  calc Real.sqrt (haversineA coord1 coord2) ≤ Real.sqrt 1 := Real.sqrt_le_sqrt h1
    _ = 1 := Real.sqrt_one

/-! ## C10: the hard-coded 1-mile range -/

/-- With an empty catalog, a loop iteration only logs the search (the
candidate list is empty, so no stop is ever selected). -/
theorem findStopsStep_empty (hav : Coord → Coord → ℚ) (route : List Coord)
    (cum : List ℚ) (total maxR : ℚ) (st : FindStopsState) (i : ℕ) :
    findStopsStep hav [] route cum total maxR st i =
      if triggerCond cum total maxR i st.last_stop_distance_from_start then
        { st with searches :=
            st.searches ++ [(i, st.last_stop_distance_from_start)] }
      else st := by
  simp only [findStopsStep, find_candidate_stations_near_segment,
    List.filter_nil, List.filterMap_nil, select_cheapest_stop]
  rfl

/-- With an empty catalog the loop never changes the state except to append
the indices passing the trigger, all paired with the unchanged last-stop
distance. -/
theorem foldl_empty_catalog (hav : Coord → Coord → ℚ) (route : List Coord)
    (cum : List ℚ) (total maxR : ℚ) :
    ∀ (l : List ℕ) (st : FindStopsState),
      l.foldl (findStopsStep hav [] route cum total maxR) st =
        ⟨st.last_stop_distance_from_start, st.optimal_stops,
          st.searches ++
            ((l.filter (fun i =>
              decide (triggerCond cum total maxR i
                st.last_stop_distance_from_start))).map
              (fun i => (i, st.last_stop_distance_from_start)))⟩ := by
  intro l
  induction l with
  | nil => intro st; simp
  | cons i rest ih =>
      intro st
      rw [List.foldl_cons, findStopsStep_empty]
      by_cases h : triggerCond cum total maxR i st.last_stop_distance_from_start
      · rw [if_pos h, ih]
        simp [List.filter_cons, h]
      · rw [if_neg h, ih]
        simp [List.filter_cons, h]

/-- Claim C10: the constant `MAX_RANGE` is 1; `plan` always passes exactly 1
as the max range to `find_stops`, independently of the request; and (taking
an empty catalog, so that the last-stop distance stays 0) on any trip whose
declared total exceeds 1 mile, the search triggers at precisely those
indices whose 1-mile-lookahead cumulative value strictly exceeds 1 —
essentially every index. -/
theorem max_range_spec (hav : Coord → Coord → ℚ) (catalog : List GasStation) :
    MAX_RANGE = 1 ∧
      (∀ (outcome : RouteFetchOutcome) (coords : List Coord) (dm ds : ℚ),
        get_initial_route outcome = .ok (coords, dm, ds) →
        RoutePlanner_plan hav catalog outcome =
          PlanResult.success (pyRound2 (dm / METERS_PER_MILE)) ds
            (pyRound2 (calculate_total_fuel_cost_on_route hav coords
              (dm / METERS_PER_MILE)
              (sortStopsByDistance
                (find_stops hav catalog coords (dm / METERS_PER_MILE) 1))))
            (sortStopsByDistance
              (find_stops hav catalog coords (dm / METERS_PER_MILE) 1))
            (coords.map (fun coord => (coord.2, coord.1)))) ∧
      (∀ (route : List Coord) (total : ℚ) (i : ℕ),
        total > 1 →
        (((i, (0 : ℚ)) ∈ findStopsSearchLog hav [] route total 1) ↔
          (i < route.length ∧
            (calculate_cumulative_distances hav route total).getD
              (find_route_point_index_by_distance
                (calculate_cumulative_distances hav route total) (0 + 1) i) 0 > 1))) ∧
      (∀ (route : List Coord) (total : ℚ) (e : ℕ × ℚ),
        e ∈ findStopsSearchLog hav [] route total 1 → e.2 = 0) := by
  have hlog : ∀ (route : List Coord) (total : ℚ),
      findStopsSearchLog hav [] route total 1 =
        ((List.range route.length).filter
          (fun j => decide (triggerCond
            (calculate_cumulative_distances hav route total) total 1 j 0))).map
          (fun j => (j, 0)) := by
    intro route total
    rw [findStopsSearchLog, findStopsState, foldl_empty_catalog]
    simp
  refine ⟨rfl, ?_, ?_, ?_⟩
  · intro outcome coords dm ds h
    simp only [RoutePlanner_plan, h, MAX_RANGE]
  · intro route total i htotal
    rw [hlog]
    constructor
    · intro hm
      obtain ⟨j, hj, hje⟩ := List.mem_map.mp hm
      injection hje with hj1 hj2
      subst hj1
      obtain ⟨hjr, hjp⟩ := List.mem_filter.mp hj
      rw [decide_eq_true_eq] at hjp
      refine ⟨List.mem_range.mp hjr, ?_⟩
      have h2 := hjp.2
      have h1 := hjp.1
      rw [triggerCond] at hjp
      linarith [hjp.2]
    · rintro ⟨hi, hgt⟩
      refine List.mem_map.mpr ⟨i, List.mem_filter.mpr ⟨List.mem_range.mpr hi, ?_⟩, rfl⟩
      rw [decide_eq_true_eq, triggerCond]
      constructor
      · linarith
      · linarith
  · intro route total e he
    rw [hlog] at he
    obtain ⟨j, _, hje⟩ := List.mem_map.mp he
    rw [← hje]

/-- Witness for `max_range_spec`: on the fixture route with declared total
600 and an empty catalog, the trigger characterisation holds at index 2. -/
theorem max_range_spec_witness :
    (600 : ℚ) > 1 ∧
      (((2 : ℕ), (0 : ℚ)) ∈ findStopsSearchLog cexHav [] cexRoute 600 1 ↔
        (2 < cexRoute.length ∧
          (calculate_cumulative_distances cexHav cexRoute 600).getD
            (find_route_point_index_by_distance
              (calculate_cumulative_distances cexHav cexRoute 600) (0 + 1) 2) 0 > 1)) :=
  ⟨by norm_num,
    (max_range_spec cexHav cexCatalog).2.2.1 cexRoute 600 2 (by norm_num)⟩
